import Mathlib

/-!
Shallow embedding of `color_utils.py` (heuristic color-space utilities).

Modelling conventions:
- numpy arrays are a shape (list of dimension sizes) plus a flat row-major
  list of element values; element values are rationals (exact arithmetic
  stands in for IEEE floats; no NaN/Inf values are modelled);
- dtypes are the three classes the code distinguishes: `uint8`, a floating
  dtype, and any other integer dtype;
- Python exceptions are `Except` errors carrying the message string;
- `cv2.cvtColor` is an external collaborator and is modelled as an oracle
  parameter (an arbitrary function from a conversion code and an array to
  a result or an error).
-/

/-- Python exception classes raised by the code under study. -/
inductive PyErr where
  | valueError (msg : String)
  | cvError (msg : String)
  deriving DecidableEq, Repr

/-- The dtype classes the code distinguishes: `np.uint8`, any floating
dtype (the code only tests `np.issubdtype(dtype, np.floating)`), and any
other (integer) numeric dtype. -/
inductive DType where
  | u8
  | f32
  | i32
  deriving DecidableEq, Repr

/-- `np.issubdtype(dtype, np.floating)`. -/
def DType.isFloat : DType → Bool
  | .f32 => true
  | _ => false

/-- `str(img.dtype)`. -/
def dtypeStr : DType → String
  | .u8 => "uint8"
  | .f32 => "float32"
  | .i32 => "int32"

/-- A numpy array: shape, dtype, and the elements flattened in row-major
(C) order, so `pix.length = shape.prod` for a well-formed array. -/
structure NpArr where
  shape : List Nat
  dtype : DType
  pix : List ℚ
  deriving DecidableEq, Repr

/-- Python's tuple repr of a shape, as interpolated into error messages:
`(2, 2)`, one-element tuples printed `(5,)`. -/
def shapeStr (s : List Nat) : String :=
  match s with
  | [n] => "(" ++ toString n ++ ",)"
  | _ => "(" ++ String.intercalate ", " (s.map toString) ++ ")"

/-- `np.min` over a flattened array: a fold over the elements; numpy
raises `ValueError` on a zero-size array. -/
def npMin (l : List ℚ) : Except PyErr ℚ :=
  match l with
  | [] => .error (.valueError "zero-size array to reduction operation minimum which has no identity")
  | x :: xs => .ok (xs.foldl min x)

/-- `np.max` over a flattened array; numpy raises `ValueError` on a
zero-size array. -/
def npMax (l : List ℚ) : Except PyErr ℚ :=
  match l with
  | [] => .error (.valueError "zero-size array to reduction operation maximum which has no identity")
  | x :: xs => .ok (xs.foldl max x)

/-- `np.nanmax`: identical to `np.max` in the NaN-free model, except for
the message of the zero-size error. -/
def npNanMax (l : List ℚ) : Except PyErr ℚ :=
  match l with
  | [] => .error (.valueError "zero-size array to reduction operation fmax which has no identity")
  | x :: xs => .ok (xs.foldl max x)

/-- `np.clip(x, lo, hi)` elementwise. -/
def npClip (x lo hi : ℚ) : ℚ := min (max x lo) hi

/-- `np.mean` over a flattened array (`sum / count`).  numpy yields NaN
(with a warning) on an empty array; the model yields `0` there (rational
division by zero), and every claim proved about means restricts to
nonempty arrays. -/
def npMean (l : List ℚ) : ℚ := l.sum / l.length

/-- numpy's / Python 3's `round`: round half to even (banker's rounding). -/
def roundHalfEven (q : ℚ) : ℤ :=
  if q - ⌊q⌋ < 1/2 then ⌊q⌋
  else if 1/2 < q - ⌊q⌋ then ⌊q⌋ + 1
  else if 2 ∣ ⌊q⌋ then ⌊q⌋ else ⌊q⌋ + 1

/-- Python's `round(x, 2)` (half-even at the second decimal). -/
def pyRound2 (q : ℚ) : ℚ := (roundHalfEven (q * 100) : ℚ) / 100

/-- Python's `round(x, 3)` (half-even at the third decimal). -/
def pyRound3 (q : ℚ) : ℚ := (roundHalfEven (q * 1000) : ℚ) / 1000

/-- Truncation toward zero, as in a C float-to-integer cast. -/
def truncTowardZero (q : ℚ) : ℤ :=
  if 0 ≤ q then ⌊q⌋ else -⌊-q⌋

/-- `.astype(np.uint8)` on a float value: truncate toward zero and wrap
modulo 256.  (For values outside `[0, 256)` the C cast is
platform-dependent; the model fixes the wrapping convention, and no
claim proved here depends on the out-of-range case.) -/
def astype_u8 (q : ℚ) : ℚ := ((truncTowardZero q % 256 : ℤ) : ℚ)

/-- `img[..., i]` of a 3-D array with trailing dimension 3, read off the
row-major flattening: every third element starting at offset `i`. -/
def channel3 : Nat → List ℚ → List ℚ
  | i, a :: b :: c :: rest => [a, b, c].getD i 0 :: channel3 i rest
  | _, _ => []

/-- `_ensure_u8_3c(img)`: require 3-D with trailing dimension 3; uint8
passes through; otherwise rescale by the `np.nanmax`-based heuristic and
convert to uint8 with numpy's half-even round. -/
def ensure_u8_3c (img : NpArr) : Except PyErr NpArr :=
  if ¬(img.shape.length = 3 ∧ img.shape.getD 2 0 = 3) then
    .error (.valueError ("Se esperaba imagen 3 canales, got shape=" ++ shapeStr img.shape))
  else if img.dtype = .u8 then
    .ok img
  else
    match npNanMax img.pix with
    | .error e => .error e
    | .ok mx =>
      if mx ≤ 1 + 1/1000000 then
        .ok ⟨img.shape, .u8, img.pix.map (fun x => astype_u8 ((roundHalfEven (npClip x 0 1 * 255) : ℤ) : ℚ))⟩
      else
        .ok ⟨img.shape, .u8, img.pix.map (fun x => astype_u8 ((roundHalfEven (npClip x 0 255) : ℤ) : ℚ))⟩

/-- `_mse(a, b)`: mean of squared elementwise differences (exact in the
rational model).  Outside the identical-shape, nonempty case required of
its callers the model reports an error (numpy would broadcast or warn);
in the code under study `_mse` is only reached inside the guarded
round-trip step, where any error is swallowed. -/
def mse (a b : NpArr) : Except PyErr ℚ :=
  if a.shape = b.shape ∧ a.pix ≠ [] ∧ a.pix.length = b.pix.length then
    .ok ((List.zipWith (fun x y => (x - y) ^ 2) a.pix b.pix).sum / a.pix.length)
  else
    .error (.valueError "operands could not be broadcast together")

/-- cv2 conversion-code constants used by the code. -/
def COLOR_BGR2GRAY : Nat := 6
/-- cv2 conversion-code constant. -/
def COLOR_GRAY2BGR : Nat := 8
/-- cv2 conversion-code constant. -/
def COLOR_BGR2YCrCb : Nat := 36
/-- cv2 conversion-code constant. -/
def COLOR_YCrCb2BGR : Nat := 38
/-- cv2 conversion-code constant. -/
def COLOR_BGR2HSV : Nat := 40
/-- cv2 conversion-code constant. -/
def COLOR_BGR2Lab : Nat := 44
/-- cv2 conversion-code constant. -/
def COLOR_HSV2BGR : Nat := 54
/-- cv2 conversion-code constant. -/
def COLOR_Lab2BGR : Nat := 56

/-- The external cv2 collaborator: `cvtColor` takes a conversion code and
an array and either returns an array or raises.  All theorems about the
code under study quantify over this oracle unless a claim fixes one. -/
structure CV2 where
  cvtColor : Nat → NpArr → Except PyErr NpArr

/-- The classification record built by `espacio_color`:
`{"espacio": ..., "dtype": ..., "shape": ..., "rangos": ..., "ciclos": ...}`. -/
structure Info where
  espacio : String
  dtype : Option String
  shape : Option (List Nat)
  rangos : Option (List (String × ℚ × ℚ))
  ciclos : List (String × ℚ)
  deriving DecidableEq, Repr

/-- The initial record: `{"espacio": "Desconocido", "dtype": None,
"shape": None, "rangos": None, "ciclos": {}}`. -/
def infoInit : Info := ⟨"Desconocido", none, none, none, []⟩

/-- The body of the `try:` block of step 4 of `espacio_color`: normalize
to uint8, run the YCrCb and Lab round trips through `cv2.cvtColor`, and
return the two MSEs.  Any error anywhere in the chain is the error the
`except Exception: pass` swallows. -/
def cycleTest (cv : CV2) (a : NpArr) : Except PyErr (ℚ × ℚ) :=
  match ensure_u8_3c a with
  | .error e => .error e
  | .ok u8 =>
    match cv.cvtColor COLOR_YCrCb2BGR u8 with
    | .error e => .error e
    | .ok bgr_y =>
      match cv.cvtColor COLOR_BGR2YCrCb bgr_y with
      | .error e => .error e
      | .ok rec_y =>
        match mse rec_y u8 with
        | .error e => .error e
        | .ok mse_y =>
          match cv.cvtColor COLOR_Lab2BGR u8 with
          | .error e => .error e
          | .ok bgr_l =>
            match cv.cvtColor COLOR_BGR2Lab bgr_l with
            | .error e => .error e
            | .ok rec_l =>
              match mse rec_l u8 with
              | .error e => .error e
              | .ok mse_l => .ok (mse_y, mse_l)

/-- Step 5 of `espacio_color`: the BGR/RGB default branches, followed by
the final `return info` when nothing matched. -/
def defaultBGR (a : NpArr) (cmax0 cmax1 cmax2 : ℚ) (info : Info) : Info :=
  if a.dtype = .u8 ∧ cmax0 ≤ 255 ∧ cmax1 ≤ 255 ∧ cmax2 ≤ 255 then
    { info with espacio := "BGR/RGB" }
  else if a.dtype.isFloat = true ∧ cmax0 ≤ 1 + 1/1000000 ∧ cmax1 ≤ 1 + 1/1000000 ∧ cmax2 ≤ 1 + 1/1000000 then
    { info with espacio := "BGR/RGB" }
  else
    info

/-- Steps 3 to 6 of `espacio_color` on a structurally valid 3-channel
array, given the three channel maxima, the (already sequenced) outcome of
the round-trip step, and the record with ranges populated.  These steps
raise nothing: the only fallible parts are the reductions (sequenced by
the caller) and the `try:` block, whose outcome `cyc` is inspected here
exactly as the `except Exception: pass` dictates. -/
def classify3 (a : NpArr) (cmax0 cmax1 cmax2 : ℚ) (cyc : Except PyErr (ℚ × ℚ)) (info : Info) : Info :=
  if a.dtype = .u8 ∧ cmax0 ≤ 180 ∧ cmax1 ≤ 255 ∧ cmax2 ≤ 255 then
    { info with espacio := "HSV" }
  else if a.dtype.isFloat = true ∧ cmax0 ≤ 360 ∧ cmax1 ≤ 11/10 ∧ cmax2 ≤ 11/10 then
    { info with espacio := "HSV" }
  else
    match cyc with
    | .ok (mse_y, mse_l) =>
      let info' := { info with ciclos := [("YCrCb_mse", pyRound3 mse_y), ("Lab_mse", pyRound3 mse_l)] }
      if mse_y < 1/2 ∨ mse_l < 1/2 then
        { info' with espacio := "Lab/YCrCb" }
      else
        defaultBGR a cmax0 cmax1 cmax2 info'
    | .error _ => defaultBGR a cmax0 cmax1 cmax2 info

/-- `espacio_color(img)`: the full classifier.  `None` yields the initial
record; 2-D arrays are `GRAY`; structurally invalid arrays are rejected
as-is; otherwise the per-channel ranges are computed (numpy raises on
zero-size reductions, in the same order the list comprehensions run) and
the ordered rule chain of `classify3` decides the label. -/
def espacio_color (cv : CV2) (img : Option NpArr) : Except PyErr Info :=
  match img with
  | none => .ok infoInit
  | some a =>
    let info1 : Info := { infoInit with dtype := some (dtypeStr a.dtype), shape := some a.shape }
    if a.shape.length = 2 then
      match npMin a.pix with
      | .error e => .error e
      | .ok cmin =>
        match npMax a.pix with
        | .error e => .error e
        | .ok cmax =>
          .ok { info1 with espacio := "GRAY", rangos := some [("Canal", pyRound2 cmin, pyRound2 cmax)] }
    else if ¬(a.shape.length = 3 ∧ a.shape.getD 2 0 = 3) then
      .ok info1
    else
      match npMin (channel3 0 a.pix), npMin (channel3 1 a.pix), npMin (channel3 2 a.pix) with
      | .error e, _, _ => .error e
      | .ok _, .error e, _ => .error e
      | .ok _, .ok _, .error e => .error e
      | .ok m0, .ok m1, .ok m2 =>
        match npMax (channel3 0 a.pix), npMax (channel3 1 a.pix), npMax (channel3 2 a.pix) with
        | .error e, _, _ => .error e
        | .ok _, .error e, _ => .error e
        | .ok _, .ok _, .error e => .error e
        | .ok M0, .ok M1, .ok M2 =>
          let info2 : Info := { info1 with rangos :=
            (some [("C0", pyRound2 m0, pyRound2 M0),
                   ("C1", pyRound2 m1, pyRound2 M1),
                   ("C2", pyRound2 m2, pyRound2 M2)]) }
          .ok (classify3 a M0 M1 M2 (cycleTest cv a) info2)

/-- The fixed conversion table `conversiones`. -/
def conversiones : List ((String × String) × Nat) :=
  [(("BGR/RGB", "HSV"), COLOR_BGR2HSV),
   (("BGR/RGB", "Lab"), COLOR_BGR2Lab),
   (("BGR/RGB", "GRAY"), COLOR_BGR2GRAY),
   (("HSV", "BGR/RGB"), COLOR_HSV2BGR),
   (("Lab", "BGR/RGB"), COLOR_Lab2BGR),
   (("GRAY", "BGR/RGB"), COLOR_GRAY2BGR)]

/-- `convertir_espacio_color(img, espacio_destino)`: classify, look the
pair up in the table, convert or raise.  (The `None` case below the
successful lookup is unreachable: `None` classifies as `Desconocido`,
which has no table entry.) -/
def convertir_espacio_color (cv : CV2) (img : Option NpArr) (espacio_destino : String) : Except PyErr NpArr :=
  match espacio_color cv img with
  | .error e => .error e
  | .ok info =>
    match conversiones.lookup (info.espacio, espacio_destino) with
    | some code =>
      match img with
      | some a => cv.cvtColor code a
      | none => .error (.cvError "cvtColor: bad argument")
    | none =>
      .error (.valueError ("Conversión no soportada: " ++ info.espacio ++ " -> " ++ espacio_destino))

/-- `modificar_canal(canal, operacion, factor)`: float copy of the
channel, one of three elementwise transforms (or a silent no-op for any
other selector), then `.astype(np.uint8)`. -/
def modificar_canal (canal : List ℚ) (operacion : String := "brillo") (factor : ℚ := 3/2) : List ℚ :=
  let canal_mod := canal
  let canal_mod :=
    if operacion = "brillo" then
      canal_mod.map (fun x => npClip (x * factor) 0 255)
    else if operacion = "contraste" then
      let mean_val := npMean canal_mod
      canal_mod.map (fun x => npClip ((x - mean_val) * factor + mean_val) 0 255)
    else if operacion = "invertir" then
      canal_mod.map (fun x => 255 - x)
    else
      canal_mod
  canal_mod.map astype_u8

/-- Spread (`max - min`) of a channel, the quantity the spec's contrast
property speaks about; `0` for an empty channel. -/
def rangeSpread (l : List ℚ) : ℚ :=
  match l with
  | [] => 0
  | x :: xs => xs.foldl max x - xs.foldl min x

/-! ### Generic helper instances and lemmas -/

instance {ε α : Type} [DecidableEq ε] [DecidableEq α] : DecidableEq (Except ε α) := fun a b =>
  match a, b with
  | .ok x, .ok y =>
    if h : x = y then isTrue (by rw [h]) else isFalse (fun hc => h (by injection hc))
  | .error x, .error y =>
    if h : x = y then isTrue (by rw [h]) else isFalse (fun hc => h (by injection hc))
  | .ok _, .error _ => isFalse (fun hc => by injection hc)
  | .error _, .ok _ => isFalse (fun hc => by injection hc)

/-- A channel holds 8-bit unsigned values: every element is an integer in
`[0, 255]`. -/
def isByteVals (l : List ℚ) : Prop := ∀ x ∈ l, x.den = 1 ∧ 0 ≤ x.num ∧ x.num ≤ 255

instance (l : List ℚ) : Decidable (isByteVals l) := by
  unfold isByteVals
  infer_instance

lemma map_id_of {l : List ℚ} {f : ℚ → ℚ} (h : ∀ x ∈ l, f x = x) : l.map f = l := by
  induction l with
  | nil => simp
  | cons a t ih =>
    simp only [List.map_cons, List.cons.injEq]
    exact ⟨h a (List.mem_cons_self a t), ih (fun x hx => h x (List.mem_cons_of_mem a hx))⟩

lemma astype_u8_int {n : ℤ} (h0 : 0 ≤ n) (h255 : n ≤ 255) : astype_u8 (n : ℚ) = (n : ℚ) := by
  unfold astype_u8 truncTowardZero
  rw [if_pos (by exact_mod_cast h0), Int.floor_intCast]
  have h : n % 256 = n := by omega
  rw [h]

lemma byte_eq_natcast {x : ℚ} (h : x.den = 1 ∧ 0 ≤ x.num ∧ x.num ≤ 255) :
    x = ((x.num : ℤ) : ℚ) := by
  exact ((Rat.den_eq_one_iff x).mp h.1).symm

lemma astype_u8_byte {x : ℚ} (h : x.den = 1 ∧ 0 ≤ x.num ∧ x.num ≤ 255) : astype_u8 x = x := by
  rw [byte_eq_natcast h]
  exact astype_u8_int h.2.1 h.2.2

/-! ### `modificar_canal`: branch characterizations -/

lemma modificar_invertir (c : List ℚ) (f : ℚ) :
    modificar_canal c "invertir" f = c.map (fun x => astype_u8 (255 - x)) := by
  simp [modificar_canal]

lemma modificar_other (c : List ℚ) (op : String) (f : ℚ)
    (h1 : op ≠ "brillo") (h2 : op ≠ "contraste") (h3 : op ≠ "invertir") :
    modificar_canal c op f = c.map astype_u8 := by
  simp [modificar_canal, h1, h2, h3]

lemma modificar_contraste (c : List ℚ) (f : ℚ) :
    modificar_canal c "contraste" f =
      c.map (fun x => astype_u8 (npClip ((x - npMean c) * f + npMean c) 0 255)) := by
  simp [modificar_canal]

/-- C6: for every 2-D channel array with 8-bit unsigned values (integers
in `[0, 255]`), applying the Invert operation twice reproduces the
original channel exactly, whatever the (ignored) factors. -/
theorem invertir_involutive (c : List ℚ) (f g : ℚ) (h : isByteVals c) :
    modificar_canal (modificar_canal c "invertir" f) "invertir" g = c := by
  rw [modificar_invertir, modificar_invertir, List.map_map]
  apply map_id_of
  intro x hx
  obtain ⟨hden, h0, h255⟩ := h x hx
  show astype_u8 (255 - astype_u8 (255 - x)) = x
  rw [byte_eq_natcast ⟨hden, h0, h255⟩]
  have e1 : (255 : ℚ) - ((x.num : ℤ) : ℚ) = ((255 - x.num : ℤ) : ℚ) := by push_cast; ring
  rw [e1, astype_u8_int (by omega) (by omega)]
  have e2 : (255 : ℚ) - ((255 - x.num : ℤ) : ℚ) = ((x.num : ℤ) : ℚ) := by push_cast; ring
  rw [e2, astype_u8_int h0 h255]

/-- Witness for C6 at the concrete channel `[0, 100, 255]`. -/
theorem invertir_involutive_witness :
    modificar_canal (modificar_canal [0, 100, 255] "invertir" (3/2)) "invertir" (3/2)
      = [0, 100, 255] :=
  invertir_involutive [0, 100, 255] (3/2) (3/2) (by decide)

/-- C9: for every channel array and every operation selector other than
`brillo`, `contraste`, `invertir`, `modificar_canal` silently returns the
input passed through the float-copy-and-uint8-cast round trip, and for
8-bit-valued input this is exactly the input. -/
theorem modificar_unknown_op (c : List ℚ) (op : String) (f : ℚ)
    (h1 : op ≠ "brillo") (h2 : op ≠ "contraste") (h3 : op ≠ "invertir") :
    modificar_canal c op f = c.map astype_u8 ∧
      (isByteVals c → modificar_canal c op f = c) := by
  refine ⟨modificar_other c op f h1 h2 h3, fun hb => ?_⟩
  rw [modificar_other c op f h1 h2 h3]
  exact map_id_of (fun x hx => astype_u8_byte (hb x hx))

/-- Witness for C9: the unrecognized selector `gamma` on `[5, 250]`. -/
theorem modificar_unknown_op_witness :
    modificar_canal [5, 250] "gamma" (3/2) = [5, 250] :=
  (modificar_unknown_op [5, 250] "gamma" (3/2) (by decide) (by decide) (by decide)).2 (by decide)

/-! ### Reduction (fold) lemmas for `np.min` / `np.max` -/

lemma le_foldl_max_init (x : ℚ) (xs : List ℚ) : x ≤ xs.foldl max x := by
  induction xs generalizing x with
  | nil => exact le_refl x
  | cons a t ih => exact le_trans (le_max_left x a) (ih (max x a))

lemma mem_le_foldl_max {y : ℚ} {xs : List ℚ} (hy : y ∈ xs) (x : ℚ) : y ≤ xs.foldl max x := by
  induction xs generalizing x with
  | nil => cases hy
  | cons a t ih =>
    rcases List.mem_cons.mp hy with h | h
    · subst h
      exact le_trans (le_max_right x y) (le_foldl_max_init (max x y) t)
    · exact ih h (max x a)

lemma foldl_max_le {m x : ℚ} {xs : List ℚ} (hx : x ≤ m) (h : ∀ y ∈ xs, y ≤ m) :
    xs.foldl max x ≤ m := by
  induction xs generalizing x with
  | nil => exact hx
  | cons a t ih =>
    exact ih (max_le hx (h a (List.mem_cons_self a t)))
      (fun y hy => h y (List.mem_cons_of_mem a hy))

lemma foldl_max_mem (x : ℚ) (xs : List ℚ) : xs.foldl max x ∈ x :: xs := by
  induction xs generalizing x with
  | nil => exact List.mem_singleton.mpr rfl
  | cons a t ih =>
    rw [List.foldl_cons]
    rcases List.mem_cons.mp (ih (max x a)) with h' | h'
    · rw [h']
      rcases max_choice x a with hc | hc <;> rw [hc]
      · exact List.mem_cons_self x (a :: t)
      · exact List.mem_cons_of_mem x (List.mem_cons_self a t)
    · exact List.mem_cons_of_mem x (List.mem_cons_of_mem a h')

lemma foldl_min_init_le (x : ℚ) (xs : List ℚ) : xs.foldl min x ≤ x := by
  induction xs generalizing x with
  | nil => exact le_refl x
  | cons a t ih => exact le_trans (ih (min x a)) (min_le_left x a)

lemma foldl_min_le_mem {y : ℚ} {xs : List ℚ} (hy : y ∈ xs) (x : ℚ) : xs.foldl min x ≤ y := by
  induction xs generalizing x with
  | nil => cases hy
  | cons a t ih =>
    rcases List.mem_cons.mp hy with h | h
    · subst h
      exact le_trans (foldl_min_init_le (min x y) t) (min_le_right x y)
    · exact ih h (min x a)

lemma le_foldl_min {m x : ℚ} {xs : List ℚ} (hx : m ≤ x) (h : ∀ y ∈ xs, m ≤ y) :
    m ≤ xs.foldl min x := by
  induction xs generalizing x with
  | nil => exact hx
  | cons a t ih =>
    exact ih (le_min hx (h a (List.mem_cons_self a t)))
      (fun y hy => h y (List.mem_cons_of_mem a hy))

lemma foldl_min_mem (x : ℚ) (xs : List ℚ) : xs.foldl min x ∈ x :: xs := by
  induction xs generalizing x with
  | nil => exact List.mem_singleton.mpr rfl
  | cons a t ih =>
    rw [List.foldl_cons]
    rcases List.mem_cons.mp (ih (min x a)) with h' | h'
    · rw [h']
      rcases min_choice x a with hc | hc <;> rw [hc]
      · exact List.mem_cons_self x (a :: t)
      · exact List.mem_cons_of_mem x (List.mem_cons_self a t)
    · exact List.mem_cons_of_mem x (List.mem_cons_of_mem a h')

/-- `np.max` computes the maximum: characterization by membership and
upper-bound. -/
lemma npMax_eq_of {l : List ℚ} {m : ℚ} (h1 : m ∈ l) (h2 : ∀ y ∈ l, y ≤ m) :
    npMax l = .ok m := by
  match l with
  | [] => cases h1
  | x :: xs =>
    have hle : xs.foldl max x ≤ m :=
      foldl_max_le (h2 x (List.mem_cons_self x xs)) (fun y hy => h2 y (List.mem_cons_of_mem x hy))
    have hge : m ≤ xs.foldl max x := by
      rcases List.mem_cons.mp h1 with h | h
      · exact h ▸ le_foldl_max_init x xs
      · exact mem_le_foldl_max h x
    simp [npMax, le_antisymm hle hge]

/-- `np.nanmax` agrees with `np.max` on nonempty (NaN-free) arrays. -/
lemma npNanMax_eq_of {l : List ℚ} {m : ℚ} (h1 : m ∈ l) (h2 : ∀ y ∈ l, y ≤ m) :
    npNanMax l = .ok m := by
  match l with
  | [] => cases h1
  | x :: xs =>
    have h := npMax_eq_of h1 h2
    simp only [npMax, Except.ok.injEq] at h
    simp [npNanMax, h]

/-- `np.min` computes the minimum: characterization by membership and
lower-bound. -/
lemma npMin_eq_of {l : List ℚ} {m : ℚ} (h1 : m ∈ l) (h2 : ∀ y ∈ l, m ≤ y) :
    npMin l = .ok m := by
  match l with
  | [] => cases h1
  | x :: xs =>
    have hge : m ≤ xs.foldl min x :=
      le_foldl_min (h2 x (List.mem_cons_self x xs)) (fun y hy => h2 y (List.mem_cons_of_mem x hy))
    have hle : xs.foldl min x ≤ m := by
      rcases List.mem_cons.mp h1 with h | h
      · exact h ▸ foldl_min_init_le x xs
      · exact foldl_min_le_mem h x
    simp [npMin, le_antisymm hle hge]

/-- On a nonempty array `np.max` succeeds and returns an attained upper
bound. -/
lemma npMax_ok (l : List ℚ) (h : l ≠ []) :
    ∃ v, npMax l = .ok v ∧ v ∈ l ∧ ∀ y ∈ l, y ≤ v := by
  match l with
  | [] => exact absurd rfl h
  | x :: xs =>
    refine ⟨xs.foldl max x, rfl, foldl_max_mem x xs, fun y hy => ?_⟩
    rcases List.mem_cons.mp hy with h' | h'
    · exact h' ▸ le_foldl_max_init x xs
    · exact mem_le_foldl_max h' x

/-- On a nonempty array `np.min` succeeds and returns an attained lower
bound. -/
lemma npMin_ok (l : List ℚ) (h : l ≠ []) :
    ∃ v, npMin l = .ok v ∧ v ∈ l ∧ ∀ y ∈ l, v ≤ y := by
  match l with
  | [] => exact absurd rfl h
  | x :: xs =>
    refine ⟨xs.foldl min x, rfl, foldl_min_mem x xs, fun y hy => ?_⟩
    rcases List.mem_cons.mp hy with h' | h'
    · exact h' ▸ foldl_min_init_le x xs
    · exact foldl_min_le_mem h' x

/-- The computed minimum is at most the computed maximum. -/
lemma npMin_le_npMax {l : List ℚ} {a b : ℚ} (hmin : npMin l = .ok a) (hmax : npMax l = .ok b) :
    a ≤ b := by
  match l with
  | [] => simp [npMin] at hmin
  | x :: xs =>
    simp only [npMin, Except.ok.injEq] at hmin
    simp only [npMax, Except.ok.injEq] at hmax
    calc a = xs.foldl min x := hmin.symm
    _ ≤ x := foldl_min_init_le x xs
    _ ≤ xs.foldl max x := le_foldl_max_init x xs
    _ = b := hmax

/-! ### C4: the normalizer `_ensure_u8_3c` -/

/-- C4 (amended): the normalizer raises a shape error naming the
offending shape for every array that is not 3-D with trailing dimension
3; returns 8-bit unsigned input unchanged; and for every other
valid-shape input **with at least one element** converts elementwise by
`round(clamp(x,0,1)*255)` when the maximum value is at most `1.000001`
and by `round(clamp(x,0,255))` otherwise (`round` is numpy's half-even
round; zero-size float arrays instead raise from the `np.nanmax`
reduction). -/
theorem ensure_u8_3c_spec :
    (∀ a : NpArr, ¬(a.shape.length = 3 ∧ a.shape.getD 2 0 = 3) →
      ensure_u8_3c a =
        .error (.valueError ("Se esperaba imagen 3 canales, got shape=" ++ shapeStr a.shape))) ∧
    (∀ a : NpArr, a.shape.length = 3 → a.shape.getD 2 0 = 3 → a.dtype = .u8 →
      ensure_u8_3c a = .ok a) ∧
    (∀ a : NpArr, ∀ m : ℚ, a.shape.length = 3 → a.shape.getD 2 0 = 3 → a.dtype ≠ .u8 →
      m ∈ a.pix → (∀ x ∈ a.pix, x ≤ m) →
      (m ≤ 1 + 1/1000000 →
        ensure_u8_3c a = .ok ⟨a.shape, .u8,
          a.pix.map (fun x => astype_u8 ((roundHalfEven (npClip x 0 1 * 255) : ℤ) : ℚ))⟩) ∧
      (¬(m ≤ 1 + 1/1000000) →
        ensure_u8_3c a = .ok ⟨a.shape, .u8,
          a.pix.map (fun x => astype_u8 ((roundHalfEven (npClip x 0 255) : ℤ) : ℚ))⟩)) := by
  refine ⟨fun a h => ?_, fun a h1 h2 h3 => ?_, fun a m h1 h2 h3 hm hub => ?_⟩
  · rw [ensure_u8_3c, if_pos h]
  · rw [ensure_u8_3c, if_neg (not_not_intro ⟨h1, h2⟩), if_pos h3]
  · have hnm : npNanMax a.pix = .ok m := npNanMax_eq_of hm hub
    have hstruct : ¬¬(a.shape.length = 3 ∧ a.shape.getD 2 0 = 3) := not_not_intro ⟨h1, h2⟩
    constructor
    · intro hle
      simp only [ensure_u8_3c, if_neg hstruct, if_neg h3, hnm, if_pos hle]
    · intro hgt
      simp only [ensure_u8_3c, if_neg hstruct, if_neg h3, hnm, if_neg hgt]

/-- Counterexample to C4 as stated: the zero-size float array of (valid)
shape `(0, 5, 3)` does not return a converted array; the `np.nanmax`
reduction raises first. -/
theorem ensure_u8_3c_empty_raises :
    ensure_u8_3c ⟨[0, 5, 3], .f32, []⟩ =
      .error (.valueError "zero-size array to reduction operation fmax which has no identity") := by
  rfl

/-- Witness for C4 exercising all three proved branches at concrete
inputs. -/
theorem ensure_u8_3c_spec_witness :
    ensure_u8_3c ⟨[2, 2], .u8, [1, 2, 3, 4]⟩ =
        .error (.valueError "Se esperaba imagen 3 canales, got shape=(2, 2)") ∧
    ensure_u8_3c ⟨[1, 1, 3], .u8, [7, 8, 9]⟩ = .ok ⟨[1, 1, 3], .u8, [7, 8, 9]⟩ ∧
    ensure_u8_3c ⟨[1, 1, 3], .f32, [300, 0, 2]⟩ = .ok ⟨[1, 1, 3], .u8, [255, 0, 2]⟩ := by
  refine ⟨?_, ?_, ?_⟩
  · rw [ensure_u8_3c_spec.1 ⟨[2, 2], .u8, [1, 2, 3, 4]⟩ (by decide)]
    rfl
  · exact ensure_u8_3c_spec.2.1 ⟨[1, 1, 3], .u8, [7, 8, 9]⟩ rfl rfl rfl
  · rw [(ensure_u8_3c_spec.2.2 ⟨[1, 1, 3], .f32, [300, 0, 2]⟩ 300 rfl rfl (by decide)
      (by decide) (by decide)).2 (by norm_num)]
    with_unfolding_all rfl

/-! ### Channel extraction and rounding lemmas -/

lemma channel3_ne_nil {l : List ℚ} (h : 3 ≤ l.length) (i : Nat) : channel3 i l ≠ [] := by
  match l, h with
  | a :: b :: c :: rest, _ => simp [channel3]

theorem channel3_subset {i : Nat} (hi : i < 3) :
    ∀ (l : List ℚ) (x : ℚ), x ∈ channel3 i l → x ∈ l
  | [], x, hx => by simp [channel3] at hx
  | [a], x, hx => by simp [channel3] at hx
  | [a, b], x, hx => by simp [channel3] at hx
  | a :: b :: c :: rest, x, hx => by
    simp only [channel3] at hx
    rcases List.mem_cons.mp hx with h | h
    · subst h
      interval_cases i
      · exact List.mem_cons_self _ _
      · exact List.mem_cons_of_mem _ (List.mem_cons_self _ _)
      · exact List.mem_cons_of_mem _ (List.mem_cons_of_mem _ (List.mem_cons_self _ _))
    · exact List.mem_cons_of_mem _ (List.mem_cons_of_mem _
        (List.mem_cons_of_mem _ (channel3_subset hi rest x h)))

lemma npMin_allEq {l : List ℚ} {q : ℚ} (hne : l ≠ []) (hall : ∀ x ∈ l, x = q) :
    npMin l = .ok q := by
  obtain ⟨v, hv, hvm, _⟩ := npMin_ok l hne
  rw [hv, hall v hvm]

lemma npMax_allEq {l : List ℚ} {q : ℚ} (hne : l ≠ []) (hall : ∀ x ∈ l, x = q) :
    npMax l = .ok q := by
  obtain ⟨v, hv, hvm, _⟩ := npMax_ok l hne
  rw [hv, hall v hvm]

lemma roundHalfEven_intCast (n : ℤ) : roundHalfEven (n : ℚ) = n := by
  unfold roundHalfEven
  rw [Int.floor_intCast]
  simp

lemma roundHalfEven_cases (q : ℚ) : roundHalfEven q = ⌊q⌋ ∨ roundHalfEven q = ⌊q⌋ + 1 := by
  unfold roundHalfEven
  split_ifs <;> simp

lemma roundHalfEven_mono {a b : ℚ} (h : a ≤ b) : roundHalfEven a ≤ roundHalfEven b := by
  have hfl : ⌊a⌋ ≤ ⌊b⌋ := Int.floor_le_floor h
  rcases lt_or_eq_of_le hfl with hlt | heq
  · have h1 : roundHalfEven a ≤ ⌊a⌋ + 1 := by
      rcases roundHalfEven_cases a with h' | h' <;> omega
    have h2 : ⌊b⌋ ≤ roundHalfEven b := by
      rcases roundHalfEven_cases b with h' | h' <;> omega
    omega
  · have hfa : (⌊a⌋ : ℚ) ≤ a := Int.floor_le a
    have hfb : (⌊b⌋ : ℚ) ≤ b := Int.floor_le b
    unfold roundHalfEven
    rw [← heq]
    split_ifs with c1 d1 c2 d2 d3 d4 d5 <;> try omega
    all_goals
      exfalso
      rw [← heq] at *
      linarith
  
lemma pyRound2_mono {a b : ℚ} (h : a ≤ b) : pyRound2 a ≤ pyRound2 b := by
  unfold pyRound2
  have h1 : roundHalfEven (a * 100) ≤ roundHalfEven (b * 100) :=
    roundHalfEven_mono (by linarith)
  have h2 : ((roundHalfEven (a * 100) : ℤ) : ℚ) ≤ ((roundHalfEven (b * 100) : ℤ) : ℚ) := by
    exact_mod_cast h1
  linarith

/-! ### C3: 2-D arrays classify as GRAY; C2: classification totality -/

/-- A concrete oracle standing in for an unavailable cv2 backend: every
conversion raises.  Used to instantiate oracle-generic theorems. -/
def cv0 : CV2 := ⟨fun _ _ => .error (.cvError "cv2 unavailable")⟩

/-- C3 (amended): for every 2-D array with at least one element,
`espacio_color` returns GRAY with the single range pair holding the true
minimum and maximum of the array rounded half-even to 2 decimal places,
independent of the oracle and with no round-trip data (it returns before
any further check).  (Zero-size 2-D arrays instead raise from the
`np.min` reduction, and the recorded pair is the rounded, not the exact,
extrema.) -/
theorem espacio_color_gray (cv : CV2) (a : NpArr) (mn mx : ℚ)
    (h2 : a.shape.length = 2)
    (hmn : mn ∈ a.pix) (hmnlb : ∀ x ∈ a.pix, mn ≤ x)
    (hmx : mx ∈ a.pix) (hmxub : ∀ x ∈ a.pix, x ≤ mx) :
    espacio_color cv (some a) =
      .ok ⟨"GRAY", some (dtypeStr a.dtype), some a.shape,
           some [("Canal", pyRound2 mn, pyRound2 mx)], []⟩ := by
  have hn : npMin a.pix = .ok mn := npMin_eq_of hmn hmnlb
  have hx : npMax a.pix = .ok mx := npMax_eq_of hmx hmxub
  simp only [espacio_color, if_pos h2, hn, hx]
  rfl

/-- Counterexample to C3 as stated: on the 1×1 float array holding
`0.125`, the recorded range pair is `(0.12, 0.12)` (Python's
`round(_, 2)`), not the true minimum and maximum `0.125`. -/
theorem espacio_color_gray_rounds :
    espacio_color cv0 (some ⟨[1, 1], .f32, [1/8]⟩) =
      .ok ⟨"GRAY", some "float32", some [1, 1], some [("Canal", 3/25, 3/25)], []⟩ ∧
    (3/25 : ℚ) ≠ 1/8 := by
  constructor
  · with_unfolding_all rfl
  · norm_num

/-- Witness for C3 at the concrete uint8 image `[[3, 7]]`. -/
theorem espacio_color_gray_witness :
    espacio_color cv0 (some ⟨[1, 2], .u8, [3, 7]⟩) =
      .ok ⟨"GRAY", some "uint8", some [1, 2], some [("Canal", pyRound2 3, pyRound2 7)], []⟩ :=
  espacio_color_gray cv0 ⟨[1, 2], .u8, [3, 7]⟩ 3 7 rfl (by decide) (by decide) (by decide) (by decide)

/-- C2 (amended): for `None` and for every well-formed array with at
least one element, `espacio_color` returns a classification record and
never raises, for every oracle behavior — in particular for oracles that
always raise, so any error of the round-trip disambiguation step is
swallowed and classification still completes.  (Zero-size arrays of 2-D
or valid 3-channel shape instead raise from the `np.min` reduction.) -/
theorem espacio_color_never_raises (cv : CV2) :
    (∃ i, espacio_color cv none = .ok i) ∧
    (∀ a : NpArr, a.pix ≠ [] → a.pix.length = a.shape.prod →
      ∃ i, espacio_color cv (some a) = .ok i) := by
  refine ⟨⟨infoInit, rfl⟩, fun a hne hwf => ?_⟩
  by_cases h2 : a.shape.length = 2
  · obtain ⟨mn, hmn, _, _⟩ := npMin_ok a.pix hne
    obtain ⟨mx, hmx, _, _⟩ := npMax_ok a.pix hne
    exact ⟨_, by simp only [espacio_color, if_pos h2, hmn, hmx]; rfl⟩
  · by_cases h3 : a.shape.length = 3 ∧ a.shape.getD 2 0 = 3
    · have hlen : 3 ≤ a.pix.length := by
        obtain ⟨s0, s1, s2, hs⟩ := List.length_eq_three.mp h3.1
        have hs2 : s2 = 3 := by
          have := h3.2
          rw [hs] at this
          simpa using this
        have hprod : a.pix.length = s0 * s1 * 3 := by
          rw [hwf, hs, hs2]
          simp [List.prod_cons]
          ring
        have hdvd : 3 ∣ a.pix.length := ⟨s0 * s1, by rw [hprod]; ring⟩
        have hpos : 0 < a.pix.length := List.length_pos.mpr hne
        omega
      obtain ⟨m0, hm0, _, _⟩ := npMin_ok _ (channel3_ne_nil hlen 0)
      obtain ⟨m1, hm1, _, _⟩ := npMin_ok _ (channel3_ne_nil hlen 1)
      obtain ⟨m2, hm2, _, _⟩ := npMin_ok _ (channel3_ne_nil hlen 2)
      obtain ⟨M0, hM0, _, _⟩ := npMax_ok _ (channel3_ne_nil hlen 0)
      obtain ⟨M1, hM1, _, _⟩ := npMax_ok _ (channel3_ne_nil hlen 1)
      obtain ⟨M2, hM2, _, _⟩ := npMax_ok _ (channel3_ne_nil hlen 2)
      exact ⟨_, by
        simp only [espacio_color, if_neg h2, if_neg (not_not_intro h3),
          hm0, hm1, hm2, hM0, hM1, hM2]
        rfl⟩
    · exact ⟨_, by simp only [espacio_color, if_neg h2, if_pos h3]; rfl⟩

/-- Counterexample to C2 as stated: on the zero-size 2-D array of shape
`(0, 0)`, `espacio_color` raises the `np.min` zero-size reduction error
instead of returning a classification result. -/
theorem espacio_color_empty_raises :
    espacio_color cv0 (some ⟨[0, 0], .f32, []⟩) =
      .error (.valueError "zero-size array to reduction operation minimum which has no identity") := by
  rfl

/-- Witness for C2: nonempty uint8 image, classification succeeds even
with the always-raising oracle `cv0`. -/
theorem espacio_color_never_raises_witness :
    ∃ i, espacio_color cv0
      (some ⟨[2, 2, 3], .u8, [1, 2, 3, 4, 5, 6, 7, 8, 9, 10, 11, 12]⟩) = .ok i :=
  (espacio_color_never_raises cv0).2 ⟨[2, 2, 3], .u8, [1, 2, 3, 4, 5, 6, 7, 8, 9, 10, 11, 12]⟩
    (by decide) (by decide)

/-! ### `classify3` structure lemmas and classifier inversion -/

lemma classify3_rangos (a : NpArr) (M0 M1 M2 : ℚ) (cyc : Except PyErr (ℚ × ℚ)) (i : Info) :
    (classify3 a M0 M1 M2 cyc i).rangos = i.rangos := by
  cases cyc with
  | ok p =>
    obtain ⟨my, ml⟩ := p
    simp only [classify3, defaultBGR]
    split_ifs <;> rfl
  | error e =>
    simp only [classify3, defaultBGR]
    split_ifs <;> rfl

lemma classify3_espacio (a : NpArr) (M0 M1 M2 : ℚ) (cyc : Except PyErr (ℚ × ℚ)) (i : Info) :
    (classify3 a M0 M1 M2 cyc i).espacio = "HSV" ∨
    (classify3 a M0 M1 M2 cyc i).espacio = "Lab/YCrCb" ∨
    (classify3 a M0 M1 M2 cyc i).espacio = "BGR/RGB" ∨
    (classify3 a M0 M1 M2 cyc i).espacio = i.espacio := by
  cases cyc with
  | ok p =>
    obtain ⟨my, ml⟩ := p
    simp only [classify3, defaultBGR]
    split_ifs <;> simp
  | error e =>
    simp only [classify3, defaultBGR]
    split_ifs <;> simp

lemma isFloat_ne_u8 {d : DType} (hf : d.isFloat = true) : ¬(d = DType.u8) := by
  intro h
  rw [h] at hf
  simp [DType.isFloat] at hf

lemma classify3_float_not_bgr {a : NpArr} (M0 M1 M2 : ℚ) (cyc : Except PyErr (ℚ × ℚ))
    {i : Info} (hf : a.dtype.isFloat = true) (hi : i.espacio ≠ "BGR/RGB") :
    (classify3 a M0 M1 M2 cyc i).espacio ≠ "BGR/RGB" := by
  have hu8 : ¬(a.dtype = DType.u8) := isFloat_ne_u8 hf
  cases cyc with
  | ok p =>
    obtain ⟨my, ml⟩ := p
    simp only [classify3, defaultBGR]
    split_ifs with h1 h2 h3 g1 g2
    · simp
    · simp
    · simp
    · exact absurd g1.1 hu8
    · exact absurd ⟨hf, by linarith [g2.2.1], by linarith [g2.2.2.1], by linarith [g2.2.2.2]⟩ h2
    · simpa using hi
  | error e =>
    simp only [classify3, defaultBGR]
    split_ifs with h1 h2 g1 g2
    · simp
    · simp
    · exact absurd g1.1 hu8
    · exact absurd ⟨hf, by linarith [g2.2.1], by linarith [g2.2.2.1], by linarith [g2.2.2.2]⟩ h2
    · simpa using hi

/-- Inversion for `espacio_color`: every successful classification comes
from one of the four return paths (missing input, GRAY, structural
rejection, or the 3-channel rule chain) with the corresponding record. -/
lemma espacio_color_ok_inv (cv : CV2) (img : Option NpArr) (info : Info)
    (h : espacio_color cv img = .ok info) :
    info = infoInit ∨
    (∃ a mn mx, img = some a ∧ npMin a.pix = .ok mn ∧ npMax a.pix = .ok mx ∧
      info = ⟨"GRAY", some (dtypeStr a.dtype), some a.shape,
              some [("Canal", pyRound2 mn, pyRound2 mx)], []⟩) ∨
    (∃ a, img = some a ∧
      info = ⟨"Desconocido", some (dtypeStr a.dtype), some a.shape, none, []⟩) ∨
    (∃ a m0 m1 m2 M0 M1 M2, img = some a ∧
      a.shape.length = 3 ∧ a.shape.getD 2 0 = 3 ∧
      npMin (channel3 0 a.pix) = .ok m0 ∧ npMin (channel3 1 a.pix) = .ok m1 ∧
      npMin (channel3 2 a.pix) = .ok m2 ∧
      npMax (channel3 0 a.pix) = .ok M0 ∧ npMax (channel3 1 a.pix) = .ok M1 ∧
      npMax (channel3 2 a.pix) = .ok M2 ∧
      info = classify3 a M0 M1 M2 (cycleTest cv a)
        ⟨"Desconocido", some (dtypeStr a.dtype), some a.shape,
         some [("C0", pyRound2 m0, pyRound2 M0), ("C1", pyRound2 m1, pyRound2 M1),
               ("C2", pyRound2 m2, pyRound2 M2)], []⟩) := by
  cases img with
  | none =>
    left
    have h' : infoInit = info := by simpa [espacio_color] using h
    exact h'.symm
  | some a =>
    simp only [espacio_color] at h
    by_cases h2 : a.shape.length = 2
    · rw [if_pos h2] at h
      cases hmn : npMin a.pix with
      | error e =>
        rw [hmn] at h
        exact absurd h (by simp)
      | ok mn =>
        rw [hmn] at h
        cases hmx : npMax a.pix with
        | error e =>
          rw [hmx] at h
          exact absurd h (by simp)
        | ok mx =>
          rw [hmx] at h
          simp only [Except.ok.injEq] at h
          exact Or.inr (Or.inl ⟨a, mn, mx, rfl, hmn, hmx, h.symm⟩)
    · rw [if_neg h2] at h
      by_cases h3 : a.shape.length = 3 ∧ a.shape.getD 2 0 = 3
      · rw [if_neg (not_not_intro h3)] at h
        cases hm0 : npMin (channel3 0 a.pix) with
        | error e => rw [hm0] at h; exact absurd h (by simp)
        | ok m0 =>
        cases hm1 : npMin (channel3 1 a.pix) with
        | error e => rw [hm0, hm1] at h; exact absurd h (by simp)
        | ok m1 =>
        cases hm2 : npMin (channel3 2 a.pix) with
        | error e => rw [hm0, hm1, hm2] at h; exact absurd h (by simp)
        | ok m2 =>
        cases hM0 : npMax (channel3 0 a.pix) with
        | error e => rw [hm0, hm1, hm2, hM0] at h; exact absurd h (by simp)
        | ok M0 =>
        cases hM1 : npMax (channel3 1 a.pix) with
        | error e => rw [hm0, hm1, hm2, hM0, hM1] at h; exact absurd h (by simp)
        | ok M1 =>
        cases hM2 : npMax (channel3 2 a.pix) with
        | error e => rw [hm0, hm1, hm2, hM0, hM1, hM2] at h; exact absurd h (by simp)
        | ok M2 =>
          rw [hm0, hm1, hm2, hM0, hM1, hM2] at h
          simp only [Except.ok.injEq] at h
          exact Or.inr (Or.inr (Or.inr ⟨a, m0, m1, m2, M0, M1, M2, rfl, h3.1, h3.2,
            hm0, hm1, hm2, hM0, hM1, hM2, h.symm⟩))
      · rw [if_pos h3] at h
        simp only [Except.ok.injEq] at h
        exact Or.inr (Or.inr (Or.inl ⟨a, rfl, h.symm⟩))

/-! ### C8: result invariants; C10: the float BGR/RGB default is dead -/

/-- C8: every successful classification carries one of the five space
labels, and every recorded per-channel range pair satisfies min ≤ max. -/
theorem espacio_color_result_invariants (cv : CV2) (img : Option NpArr) (info : Info)
    (h : espacio_color cv img = .ok info) :
    (info.espacio = "GRAY" ∨ info.espacio = "HSV" ∨ info.espacio = "Lab/YCrCb" ∨
     info.espacio = "BGR/RGB" ∨ info.espacio = "Desconocido") ∧
    List.Forall (fun p : String × ℚ × ℚ => p.2.1 ≤ p.2.2) (info.rangos.getD []) := by
  rcases espacio_color_ok_inv cv img info h with h1 | ⟨a, mn, mx, ha, hmn, hmx, h1⟩ | ⟨a, ha, h1⟩ |
    ⟨a, m0, m1, m2, M0, M1, M2, ha, _, _, hm0, hm1, hm2, hM0, hM1, hM2, h1⟩
  · rw [h1]
    exact ⟨Or.inr (Or.inr (Or.inr (Or.inr rfl))), trivial⟩
  · rw [h1]
    exact ⟨Or.inl rfl, pyRound2_mono (npMin_le_npMax hmn hmx)⟩
  · rw [h1]
    exact ⟨Or.inr (Or.inr (Or.inr (Or.inr rfl))), trivial⟩
  · constructor
    · rcases classify3_espacio a M0 M1 M2 (cycleTest cv a)
        ⟨"Desconocido", some (dtypeStr a.dtype), some a.shape,
         some [("C0", pyRound2 m0, pyRound2 M0), ("C1", pyRound2 m1, pyRound2 M1),
               ("C2", pyRound2 m2, pyRound2 M2)], []⟩ with hc | hc | hc | hc
      · exact Or.inr (Or.inl (h1 ▸ hc))
      · exact Or.inr (Or.inr (Or.inl (h1 ▸ hc)))
      · exact Or.inr (Or.inr (Or.inr (Or.inl (h1 ▸ hc))))
      · exact Or.inr (Or.inr (Or.inr (Or.inr (h1 ▸ hc))))
    · rw [h1, classify3_rangos]
      exact ⟨pyRound2_mono (npMin_le_npMax hm0 hM0),
             pyRound2_mono (npMin_le_npMax hm1 hM1),
             pyRound2_mono (npMin_le_npMax hm2 hM2)⟩

/-- Witness for C8 at a concrete uint8 grayscale image. -/
theorem espacio_color_result_invariants_witness :
    ((⟨"GRAY", some "uint8", some [1, 2], some [("Canal", 3, 7)], []⟩ : Info).espacio = "GRAY" ∨
     (⟨"GRAY", some "uint8", some [1, 2], some [("Canal", 3, 7)], []⟩ : Info).espacio = "HSV" ∨
     (⟨"GRAY", some "uint8", some [1, 2], some [("Canal", 3, 7)], []⟩ : Info).espacio = "Lab/YCrCb" ∨
     (⟨"GRAY", some "uint8", some [1, 2], some [("Canal", 3, 7)], []⟩ : Info).espacio = "BGR/RGB" ∨
     (⟨"GRAY", some "uint8", some [1, 2], some [("Canal", 3, 7)], []⟩ : Info).espacio = "Desconocido") ∧
    List.Forall (fun p : String × ℚ × ℚ => p.2.1 ≤ p.2.2)
      ((⟨"GRAY", some "uint8", some [1, 2], some [("Canal", 3, 7)], []⟩ : Info).rangos.getD []) :=
  espacio_color_result_invariants cv0 (some ⟨[1, 2], .u8, [3, 7]⟩) _ (by with_unfolding_all rfl)

/-- C10: for every floating-dtype image and every oracle, `espacio_color`
never returns BGR/RGB: the float HSV rule (channel-0 max ≤ 360, channels
1 and 2 max ≤ 1.1) subsumes the float default rule (all maxima
≤ 1.000001) and fires first. -/
theorem espacio_color_float_never_bgr (cv : CV2) (a : NpArr) (info : Info)
    (hf : a.dtype.isFloat = true) (h : espacio_color cv (some a) = .ok info) :
    info.espacio ≠ "BGR/RGB" := by
  rcases espacio_color_ok_inv cv (some a) info h with h1 | ⟨b, mn, mx, hb, _, _, h1⟩ | ⟨b, hb, h1⟩ |
    ⟨b, m0, m1, m2, M0, M1, M2, hb, _, _, _, _, _, _, _, _, h1⟩
  · rw [h1]
    simp [infoInit]
  · rw [h1]
    simp
  · rw [h1]
    simp
  · have hab : a = b := by injection hb
    rw [h1]
    exact classify3_float_not_bgr M0 M1 M2 (cycleTest cv b) (hab ▸ hf) (by simp)

/-- Witness for C10: the all-0.5 float 1×1 image classifies as HSV, not
BGR/RGB. -/
theorem espacio_color_float_never_bgr_witness :
    (⟨"HSV", some "float32", some [1, 1, 3],
      some [("C0", 1/2, 1/2), ("C1", 1/2, 1/2), ("C2", 1/2, 1/2)], []⟩ : Info).espacio ≠ "BGR/RGB" :=
  espacio_color_float_never_bgr cv0 ⟨[1, 1, 3], .f32, [1/2, 1/2, 1/2]⟩ _ rfl
    (by with_unfolding_all rfl)

/-! ### C5: the converter and its fixed table -/

/-- A successful classification labeled BGR/RGB can only come from the
3-channel rule chain, so the image passed the structural check. -/
lemma espacio_bgr_struct (cv : CV2) (a : NpArr) (info : Info)
    (h : espacio_color cv (some a) = .ok info) (hb : info.espacio = "BGR/RGB") :
    a.shape.length = 3 ∧ a.shape.getD 2 0 = 3 := by
  rcases espacio_color_ok_inv cv (some a) info h with h1 | ⟨b, mn, mx, hab, _, _, h1⟩ |
    ⟨b, hab, h1⟩ | ⟨b, m0, m1, m2, M0, M1, M2, hab, hlen, hgd, _, _, _, _, _, _, h1⟩
  · rw [h1] at hb
    simp [infoInit] at hb
  · rw [h1] at hb
    simp at hb
  · rw [h1] at hb
    simp at hb
  · have hab' : a = b := by injection hab
    exact hab' ▸ ⟨hlen, hgd⟩

/-- A shape-preserving total oracle, used to witness oracle-contract
hypotheses: adds 1 to every pixel (so round trips are never
near-perfect and the Lab/YCrCb threshold cannot fire spuriously). -/
def cvPlus : CV2 := ⟨fun _ b => .ok ⟨b.shape, b.dtype, b.pix.map (fun x => x + 1)⟩⟩

/-- Generic shape of the converter's error path: once classification
succeeded and the lookup misses, the error names source and
destination. -/
lemma convertir_none_helper (cv : CV2) (img : Option NpArr) (dest : String) (info : Info)
    (hesp : espacio_color cv img = .ok info)
    (hlk : conversiones.lookup (info.espacio, dest) = none) :
    convertir_espacio_color cv img dest =
      .error (.valueError ("Conversión no soportada: " ++ info.espacio ++ " -> " ++ dest)) := by
  simp only [convertir_espacio_color, hesp, hlk]

/-- C5: the converter raises `UnsupportedConversionError` naming the
detected source and the requested destination whenever the pair is
absent from the six-entry table — `(HSV, Lab)` and every pair with
source `Desconocido` are absent — and, under the spec's contract on the
cv2 collaborator (total and shape-preserving on valid 3-channel input),
a present pair such as (BGR/RGB, HSV) succeeds and returns an array of
the input's shape `(H, W, 3)`. -/
theorem convertir_unsupported :
    (∀ (cv : CV2) (img : Option NpArr) (dest : String) (info : Info),
      espacio_color cv img = .ok info →
      conversiones.lookup (info.espacio, dest) = none →
      convertir_espacio_color cv img dest =
        .error (.valueError ("Conversión no soportada: " ++ info.espacio ++ " -> " ++ dest))) ∧
    conversiones.lookup ("HSV", "Lab") = none ∧
    (∀ dest : String, conversiones.lookup ("Desconocido", dest) = none) ∧
    (∀ (cv : CV2) (a : NpArr) (info : Info),
      (∀ (code : Nat) (b : NpArr), b.shape.length = 3 → b.shape.getD 2 0 = 3 →
        ∃ out, cv.cvtColor code b = .ok out ∧ out.shape = b.shape) →
      espacio_color cv (some a) = .ok info → info.espacio = "BGR/RGB" →
      ∃ out, convertir_espacio_color cv (some a) "HSV" = .ok out ∧ out.shape = a.shape) := by
  refine ⟨convertir_none_helper, by rfl, fun dest => ?_, fun cv a info hcv hesp hb => ?_⟩
  · simp [conversiones, List.lookup, BEq.beq]
  · obtain ⟨hlen, hgd⟩ := espacio_bgr_struct cv a info hesp hb
    obtain ⟨out, hout, hshape⟩ := hcv COLOR_BGR2HSV a hlen hgd
    refine ⟨out, ?_, hshape⟩
    simp only [convertir_espacio_color, hesp, hb]
    have hlk : conversiones.lookup (("BGR/RGB", "HSV") : String × String) = some COLOR_BGR2HSV := rfl
    simp only [hlk]
    exact hout

/-- Witness for C5: the absent pair `(HSV, Lab)`, and a successful
(BGR/RGB, HSV) conversion through the shape-preserving oracle `cvPlus`
on a uint8 image whose channel-0 maximum (200) exceeds the HSV rule. -/
theorem convertir_unsupported_witness :
    conversiones.lookup ("HSV", "Lab") = none ∧
    (∃ out, convertir_espacio_color cvPlus (some ⟨[1, 1, 3], .u8, [200, 5, 5]⟩) "HSV" = .ok out ∧
      out.shape = [1, 1, 3]) :=
  ⟨convertir_unsupported.2.1,
   convertir_unsupported.2.2.2 cvPlus ⟨[1, 1, 3], .u8, [200, 5, 5]⟩
     ⟨"BGR/RGB", some "uint8", some [1, 1, 3],
      some [("C0", 200, 200), ("C1", 5, 5), ("C2", 5, 5)],
      [("YCrCb_mse", 4), ("Lab_mse", 4)]⟩
     (fun code b h1 h2 => ⟨⟨b.shape, b.dtype, b.pix.map (fun x => x + 1)⟩, rfl, rfl⟩)
     (by with_unfolding_all rfl) rfl⟩

/-! ### C1: the all-0.5 float image scenario -/

/-- A constant float image with value `q ≤ 1.1` in every channel matches
the float HSV rule (step 5 of the chain) and is classified HSV — before
the round-trip step and before the BGR/RGB default can be consulted. -/
lemma espacio_const_float (cv : CV2) (h w : ℕ) (q : ℚ) (hpos : 1 ≤ h * w) (hq : q ≤ 11/10) :
    espacio_color cv (some ⟨[h, w, 3], .f32, List.replicate (h * w * 3) q⟩) =
      .ok ⟨"HSV", some "float32", some [h, w, 3],
           some [("C0", pyRound2 q, pyRound2 q), ("C1", pyRound2 q, pyRound2 q),
                 ("C2", pyRound2 q, pyRound2 q)], []⟩ := by
  set l := List.replicate (h * w * 3) q with hl
  have hlen : 3 ≤ l.length := by
    rw [hl, List.length_replicate]
    omega
  have hch : ∀ i, i < 3 → npMin (channel3 i l) = .ok q ∧ npMax (channel3 i l) = .ok q := by
    intro i hi
    have hall : ∀ x ∈ channel3 i l, x = q := fun x hx =>
      List.eq_of_mem_replicate (hl ▸ channel3_subset hi l x hx)
    exact ⟨npMin_allEq (channel3_ne_nil hlen i) hall, npMax_allEq (channel3_ne_nil hlen i) hall⟩
  obtain ⟨hm0, hM0⟩ := hch 0 (by omega)
  obtain ⟨hm1, hM1⟩ := hch 1 (by omega)
  obtain ⟨hm2, hM2⟩ := hch 2 (by omega)
  have h2 : ¬(([h, w, 3] : List ℕ).length = 2) := by simp
  have hstruct : ¬¬(([h, w, 3] : List ℕ).length = 3 ∧ ([h, w, 3] : List ℕ).getD 2 0 = 3) :=
    not_not_intro ⟨rfl, rfl⟩
  simp only [espacio_color, if_neg h2, if_neg hstruct, hm0, hm1, hm2, hM0, hM1, hM2]
  simp only [classify3,
    if_neg (fun hc => DType.noConfusion hc.1 : ¬(DType.f32 = DType.u8 ∧ q ≤ 180 ∧ q ≤ 255 ∧ q ≤ 255)),
    if_pos (⟨rfl, by linarith, hq, hq⟩ :
      DType.f32.isFloat = true ∧ q ≤ 360 ∧ q ≤ 11/10 ∧ q ≤ 11/10)]
  rfl

/-- The 100×100×3 array filled with 0.5 in every channel. -/
def img100 : NpArr := ⟨[100, 100, 3], .f32, List.replicate (100 * 100 * 3) (1/2)⟩

lemma pyRound2_half : pyRound2 (1/2) = 1/2 := by
  have h50 : (1/2 : ℚ) * 100 = ((50 : ℤ) : ℚ) := by norm_num
  rw [pyRound2, h50, roundHalfEven_intCast]
  norm_num

/-- Counterexample to C1 as stated: the all-0.5 100×100×3 float image is
classified HSV (not BGR/RGB), and converting it to HSV raises the
unsupported-conversion error. -/
theorem img100_hsv_not_bgr :
    espacio_color cv0 (some img100) =
      .ok ⟨"HSV", some "float32", some [100, 100, 3],
           some [("C0", 1/2, 1/2), ("C1", 1/2, 1/2), ("C2", 1/2, 1/2)], []⟩ ∧
    "HSV" ≠ "BGR/RGB" ∧
    convertir_espacio_color cv0 (some img100) "HSV" =
      .error (.valueError "Conversión no soportada: HSV -> HSV") := by
  have hesp := espacio_const_float cv0 100 100 (1/2) (by norm_num) (by norm_num)
  rw [pyRound2_half] at hesp
  have hesp' : espacio_color cv0 (some img100) =
      .ok ⟨"HSV", some "float32", some [100, 100, 3],
           some [("C0", 1/2, 1/2), ("C1", 1/2, 1/2), ("C2", 1/2, 1/2)], []⟩ := hesp
  refine ⟨hesp', by simp, ?_⟩
  have hlk : conversiones.lookup (("HSV", "HSV") : String × String) = none := by
    simp [conversiones, List.lookup, BEq.beq]
  rw [convertir_none_helper cv0 (some img100) "HSV" _ hesp' hlk]
  rfl

/-- C1 (amended): for every oracle, the all-0.5 100×100×3 float image is
classified HSV by the float HSV rule (channel maxima 0.5 ≤ 360 and
≤ 1.1), which precedes the BGR/RGB default; requesting conversion to HSV
then fails with `UnsupportedConversionError` naming HSV → HSV, since
(HSV, HSV) is not in the table. -/
theorem img100_classified_hsv (cv : CV2) :
    espacio_color cv (some img100) =
      .ok ⟨"HSV", some "float32", some [100, 100, 3],
           some [("C0", 1/2, 1/2), ("C1", 1/2, 1/2), ("C2", 1/2, 1/2)], []⟩ ∧
    convertir_espacio_color cv (some img100) "HSV" =
      .error (.valueError "Conversión no soportada: HSV -> HSV") := by
  have hesp := espacio_const_float cv 100 100 (1/2) (by norm_num) (by norm_num)
  rw [pyRound2_half] at hesp
  have hesp' : espacio_color cv (some img100) =
      .ok ⟨"HSV", some "float32", some [100, 100, 3],
           some [("C0", 1/2, 1/2), ("C1", 1/2, 1/2), ("C2", 1/2, 1/2)], []⟩ := hesp
  refine ⟨hesp', ?_⟩
  have hlk : conversiones.lookup (("HSV", "HSV") : String × String) = none := by
    simp [conversiones, List.lookup, BEq.beq]
  rw [convertir_none_helper cv (some img100) "HSV" _ hesp' hlk]
  rfl

/-! ### C7: the Contrast operation -/

lemma byte_bounds {x : ℚ} (h : x.den = 1 ∧ 0 ≤ x.num ∧ x.num ≤ 255) : 0 ≤ x ∧ x ≤ 255 := by
  rw [byte_eq_natcast h]
  constructor
  · exact_mod_cast h.2.1
  · exact_mod_cast h.2.2

lemma npClip_id {x lo hi : ℚ} (h1 : lo ≤ x) (h2 : x ≤ hi) : npClip x lo hi = x := by
  unfold npClip
  rw [max_eq_left h1, min_eq_left h2]

lemma npClip_mono {a b lo hi : ℚ} (h : a ≤ b) : npClip a lo hi ≤ npClip b lo hi :=
  min_le_min (max_le_max h (le_refl lo)) (le_refl hi)

lemma astype_u8_clip (z : ℚ) :
    astype_u8 (npClip z 0 255) = ((⌊npClip z 0 255⌋ : ℤ) : ℚ) := by
  have h0 : (0 : ℚ) ≤ npClip z 0 255 := le_min (le_max_right z 0) (by norm_num)
  have h255 : npClip z 0 255 ≤ 255 := min_le_right _ _
  have hf0 : (0 : ℤ) ≤ ⌊npClip z 0 255⌋ := Int.floor_nonneg.mpr h0
  have hf255 : ⌊npClip z 0 255⌋ ≤ 255 := by
    have := Int.floor_le_floor h255
    rw [show ⌊(255 : ℚ)⌋ = 255 from by norm_num] at this
    exact this
  unfold astype_u8 truncTowardZero
  rw [if_pos h0]
  have hm : ⌊npClip z 0 255⌋ % 256 = ⌊npClip z 0 255⌋ := by omega
  rw [hm]

lemma foldl_max_map {g : ℚ → ℚ} (hg : Monotone g) :
    ∀ (xs : List ℚ) (x : ℚ), (xs.map g).foldl max (g x) = g (xs.foldl max x)
  | [], x => rfl
  | a :: t, x => by
    simp only [List.map_cons, List.foldl_cons]
    rw [← hg.map_max]
    exact foldl_max_map hg t (max x a)

lemma foldl_min_map {g : ℚ → ℚ} (hg : Monotone g) :
    ∀ (xs : List ℚ) (x : ℚ), (xs.map g).foldl min (g x) = g (xs.foldl min x)
  | [], x => rfl
  | a :: t, x => by
    simp only [List.map_cons, List.foldl_cons]
    rw [← hg.map_min]
    exact foldl_min_map hg t (min x a)

lemma length_cons_pos (x : ℚ) (xs : List ℚ) : (0 : ℚ) < ((x :: xs).length : ℚ) := by
  have : 0 < (x :: xs).length := Nat.succ_pos xs.length
  exact_mod_cast this

lemma npMean_le_foldl_max (x : ℚ) (xs : List ℚ) : npMean (x :: xs) ≤ xs.foldl max x := by
  have hub : ∀ y ∈ x :: xs, y ≤ xs.foldl max x := by
    intro y hy
    rcases List.mem_cons.mp hy with h | h
    · exact h ▸ le_foldl_max_init x xs
    · exact mem_le_foldl_max h x
  have hsum := List.sum_le_card_nsmul (x :: xs) (xs.foldl max x) hub
  rw [nsmul_eq_mul] at hsum
  unfold npMean
  rw [div_le_iff (length_cons_pos x xs)]
  linarith [hsum]

lemma foldl_min_le_npMean (x : ℚ) (xs : List ℚ) : xs.foldl min x ≤ npMean (x :: xs) := by
  have hlb : ∀ y ∈ x :: xs, xs.foldl min x ≤ y := by
    intro y hy
    rcases List.mem_cons.mp hy with h | h
    · exact h ▸ foldl_min_init_le x xs
    · exact foldl_min_le_mem h x
  have hsum := List.card_nsmul_le_sum (x :: xs) (xs.foldl min x) hlb
  rw [nsmul_eq_mul] at hsum
  unfold npMean
  rw [le_div_iff (length_cons_pos x xs)]
  linarith [hsum]

lemma contrast_fun_mono (m f : ℚ) (hf : 0 ≤ f) :
    Monotone (fun y : ℚ => ((⌊npClip ((y - m) * f + m) 0 255⌋ : ℤ) : ℚ)) := by
  intro a b hab
  have h1 : (a - m) * f + m ≤ (b - m) * f + m := by nlinarith
  have h2 := @npClip_mono _ _ 0 255 h1
  have h3 := Int.floor_le_floor h2
  show ((⌊npClip ((a - m) * f + m) 0 255⌋ : ℤ) : ℚ) ≤ ((⌊npClip ((b - m) * f + m) 0 255⌋ : ℤ) : ℚ)
  exact_mod_cast h3

/-- C7 (amended): Contrast with factor 1.0 returns an 8-bit-valued
channel unchanged, and for every channel with values in `[0, 255]` the
spread (max − min) of the output is monotone **non-decreasing** in the
factor (for `0 ≤ f1 ≤ f2`).  Strict increase fails because of clamping
to `[0, 255]` and uint8 quantization, and the factor-1.0 identity fails
for non-integer values because of the final uint8 cast. -/
theorem contraste_spec :
    (∀ c : List ℚ, isByteVals c → modificar_canal c "contraste" 1 = c) ∧
    (∀ (c : List ℚ) (f1 f2 : ℚ), c ≠ [] → (∀ x ∈ c, 0 ≤ x ∧ x ≤ 255) →
      0 ≤ f1 → f1 ≤ f2 →
      rangeSpread (modificar_canal c "contraste" f1) ≤
        rangeSpread (modificar_canal c "contraste" f2)) := by
  constructor
  · intro c hb
    rw [modificar_contraste]
    apply map_id_of
    intro x hx
    have hbx := hb x hx
    have hx' : (x - npMean c) * 1 + npMean c = x := by ring
    rw [hx', npClip_id (byte_bounds hbx).1 (byte_bounds hbx).2]
    exact astype_u8_byte hbx
  · intro c f1 f2 hne hbnd hf1 hf12
    match c with
    | x :: xs =>
      rw [modificar_contraste, modificar_contraste]
      have hfun : ∀ f : ℚ,
          (fun y => astype_u8 (npClip ((y - npMean (x :: xs)) * f + npMean (x :: xs)) 0 255)) =
          (fun y => ((⌊npClip ((y - npMean (x :: xs)) * f + npMean (x :: xs)) 0 255⌋ : ℤ) : ℚ)) :=
        fun f => funext fun y => astype_u8_clip _
      rw [hfun f1, hfun f2]
      have hm1 := contrast_fun_mono (npMean (x :: xs)) f1 hf1
      have hm2 := contrast_fun_mono (npMean (x :: xs)) f2 (le_trans hf1 hf12)
      have hspread : ∀ g : ℚ → ℚ, Monotone g →
          rangeSpread ((x :: xs).map g) = g (xs.foldl max x) - g (xs.foldl min x) := by
        intro g hg
        simp only [List.map_cons, rangeSpread]
        rw [foldl_max_map hg, foldl_min_map hg]
      rw [hspread _ hm1, hspread _ hm2]
      have hT : npMean (x :: xs) ≤ xs.foldl max x := npMean_le_foldl_max x xs
      have hB : xs.foldl min x ≤ npMean (x :: xs) := foldl_min_le_npMean x xs
      have htop : ((⌊npClip ((xs.foldl max x - npMean (x :: xs)) * f1 + npMean (x :: xs)) 0 255⌋ : ℤ) : ℚ) ≤
          ((⌊npClip ((xs.foldl max x - npMean (x :: xs)) * f2 + npMean (x :: xs)) 0 255⌋ : ℤ) : ℚ) := by
        have h1 : (xs.foldl max x - npMean (x :: xs)) * f1 + npMean (x :: xs) ≤
            (xs.foldl max x - npMean (x :: xs)) * f2 + npMean (x :: xs) := by nlinarith
        have h2 := @npClip_mono _ _ 0 255 h1
        exact_mod_cast Int.floor_le_floor h2
      have hbot : ((⌊npClip ((xs.foldl min x - npMean (x :: xs)) * f2 + npMean (x :: xs)) 0 255⌋ : ℤ) : ℚ) ≤
          ((⌊npClip ((xs.foldl min x - npMean (x :: xs)) * f1 + npMean (x :: xs)) 0 255⌋ : ℤ) : ℚ) := by
        have h1 : (xs.foldl min x - npMean (x :: xs)) * f2 + npMean (x :: xs) ≤
            (xs.foldl min x - npMean (x :: xs)) * f1 + npMean (x :: xs) := by nlinarith
        have h2 := @npClip_mono _ _ 0 255 h1
        exact_mod_cast Int.floor_le_floor h2
      linarith

/-- Counterexample to C7 as stated: Contrast with factor 1.0 does not
leave the fractional channel `[0.5]` unchanged (the uint8 cast truncates
it to `[0]`), and on the non-constant channel `[0, 255]` factor 2 does
not strictly increase the spread — clamping returns the channel itself. -/
theorem contraste_counterexample :
    modificar_canal [1/2] "contraste" 1 = [0] ∧ ([0] : List ℚ) ≠ [1/2] ∧
    modificar_canal [0, 255] "contraste" 2 = [0, 255] ∧
    rangeSpread (modificar_canal [0, 255] "contraste" 2) = rangeSpread [0, 255] := by
  refine ⟨?_, by norm_num, ?_, ?_⟩
  · with_unfolding_all rfl
  · with_unfolding_all rfl
  · with_unfolding_all rfl

/-- Witness for C7 on the concrete channel `[0, 100, 255]` with factors
1 and 2. -/
theorem contraste_spec_witness :
    modificar_canal [0, 100, 255] "contraste" 1 = [0, 100, 255] ∧
    rangeSpread (modificar_canal [0, 100, 255] "contraste" 1) ≤
      rangeSpread (modificar_canal [0, 100, 255] "contraste" 2) :=
  ⟨contraste_spec.1 [0, 100, 255] (by decide),
   contraste_spec.2 [0, 100, 255] 1 2 (by decide)
     (by decide) (by norm_num) (by norm_num)⟩
